import Mathlib

/-!
# Snake3D: the game-state engine of `src/snake3d/snake3d.js`

A shallow embedding of the `Game` object's state and of the methods that
change it (`startGame`, `spawnFood`, `handleInput`, `togglePause`, `update`,
`moveSnake`, `gameOver`), of the matrix helpers `mat4Create`, `mat4Multiply`,
`mat4Translate` and of the grid-to-world map `getCellWorldPos`, followed by
theorems about them.

Modelling conventions.
* JavaScript numbers that hold grid coordinates and the score are exact
  integers here (`Int`, `Nat`); clock readings are whole milliseconds (`Int`).
* The mutable `Game` singleton becomes a value of type `Game` that every
  method takes and returns.  Only the fields under "Game state" are kept: the
  WebGL handles, matrices and camera are never read or written by the methods
  embedded here, and the DOM writes of `updateScore`/`gameOver`/`startGame`
  change no `Game` field.
* `performance.now()` is an argument `now`.
* `Math.random()` is an argument too: a method that may spawn food takes the
  list of draws still to come and returns the unused rest.  One draw is the
  pair `(Math.floor(Math.random() * GRID_SIZE), Math.floor(Math.random() * GRID_SIZE))`
  of one loop iteration of `spawnFood`, two numbers below `GRID_SIZE`.
* A `Float32Array` of 16 numbers is a function on `Fin 16`, with entries in any
  commutative ring (exact arithmetic, no rounding). World coordinates, which
  take half-integer values, are rationals.
* A method returns `none` when the JavaScript call does not return normally:
  `moveSnake` on an empty snake (reading `head.x` of `undefined` throws), or a
  `spawnFood` loop that rejects every draw it is given.
-/

namespace Snake3D

/-! ## Constants -/

/-- Source: `const GRID_SIZE = 12;` -/
def GRID_SIZE : Nat := 12

/-- Source: `const GAME_SPEED = 150; // ms per move` -/
def GAME_SPEED : Int := 150

/-! ## Data model -/

/-- An object literal `{ x: ..., y: ... }`: a snake segment, the food, or a
direction. -/
structure Cell where
  x : Int
  y : Int
deriving DecidableEq, Repr

/-- One iteration's worth of random numbers in `spawnFood`: the values of the two
`Math.floor(Math.random() * GRID_SIZE)` expressions, x first. -/
abbrev Draw : Type := Fin GRID_SIZE × Fin GRID_SIZE

/-- The "Game state" fields of the `Game` object. `food : none` is `food: null`. -/
structure Game where
  snake : List Cell
  direction : Cell
  nextDirection : Cell
  food : Option Cell
  score : Nat
  isPlaying : Bool
  isPaused : Bool
  lastMoveTime : Int
deriving DecidableEq, Repr

/-- The `Game` object literal as the script creates it. -/
def Game.initial : Game :=
  { snake := []
    direction := { x := 1, y := 0 }
    nextDirection := { x := 1, y := 0 }
    food := none
    score := 0
    isPlaying := false
    isPaused := false
    lastMoveTime := 0 }

/-- The callback `segment => segment.x === c.x && segment.y === c.y` used by both
`snake.some(...)` calls. -/
def sameCell (c : Cell) (segment : Cell) : Bool :=
  segment.x == c.x && segment.y == c.y

/-- The candidate of one `spawnFood` iteration:
`{ x: floor(random * GRID_SIZE) - floor(GRID_SIZE / 2), y: ... }`. -/
def foodOfDraw (d : Draw) : Cell :=
  { x := (d.1.val : Int) - ((GRID_SIZE / 2 : Nat) : Int)
    y := (d.2.val : Int) - ((GRID_SIZE / 2 : Nat) : Int) }

/-- The call `e.key.toLowerCase()`, on the ASCII letters (which is all that matters
for the comparison with the string p). -/
def toLowerCase (key : String) : String :=
  String.mk (key.data.map Char.toLower)

/-! ## Methods -/

/-- Source `Game.spawnFood`: draw cells until one is not on the snake, then store
it in `food`. Returns the unused draws; `none` when every draw is rejected. -/
def spawnFood (g : Game) : List Draw → Option (Game × List Draw)
  | [] => none
  | d :: rest =>
    let food := foodOfDraw d
    if g.snake.any (sameCell food) then spawnFood g rest
    else some ({ g with food := some food }, rest)

/-- Source `Game.startGame`. -/
def startGame (g : Game) (now : Int) (draws : List Draw) : Option (Game × List Draw) :=
  let g1 : Game :=
    { g with
      snake := [{ x := 0, y := 0 }, { x := -1, y := 0 }, { x := -2, y := 0 }]
      direction := { x := 1, y := 0 }
      nextDirection := { x := 1, y := 0 }
      score := 0 }
  match spawnFood g1 draws with
  | none => none
  | some (g2, rest) =>
    some ({ g2 with isPlaying := true, isPaused := false, lastMoveTime := now }, rest)

/-- Source `Game.togglePause`. -/
def togglePause (g : Game) (now : Int) : Game :=
  let g1 : Game := { g with isPaused := !g.isPaused }
  if !g1.isPaused then { g1 with lastMoveTime := now } else g1

/-- Source `Game.gameOver` (the two DOM writes change no field). -/
def gameOver (g : Game) : Game :=
  { g with isPlaying := false }

/-- Source `Game.handleInput`, on the event's `key`. -/
def handleInput (g : Game) (key : String) (now : Int) (draws : List Draw) :
    Option (Game × List Draw) :=
  if !g.isPlaying || g.isPaused then
    if toLowerCase key = "p" && !g.isPlaying then
      startGame g now draws
    else
      some (g, draws)
  else if toLowerCase key = "p" then
    some (togglePause g now, draws)
  else if key = "ArrowUp" ∨ key = "w" ∨ key = "W" then
    if g.direction.y ≠ 1 then some ({ g with nextDirection := { x := 0, y := -1 } }, draws)
    else some (g, draws)
  else if key = "ArrowDown" ∨ key = "s" ∨ key = "S" then
    if g.direction.y ≠ -1 then some ({ g with nextDirection := { x := 0, y := 1 } }, draws)
    else some (g, draws)
  else if key = "ArrowLeft" ∨ key = "a" ∨ key = "A" then
    if g.direction.x ≠ 1 then some ({ g with nextDirection := { x := -1, y := 0 } }, draws)
    else some (g, draws)
  else if key = "ArrowRight" ∨ key = "d" ∨ key = "D" then
    if g.direction.x ≠ -1 then some ({ g with nextDirection := { x := 1, y := 0 } }, draws)
    else some (g, draws)
  else
    some (g, draws)

/-- Source `Game.moveSnake`. -/
def moveSnake (g : Game) (draws : List Draw) : Option (Game × List Draw) :=
  let g1 : Game := { g with direction := g.nextDirection }
  match g1.snake with
  | [] => none
  | head :: _ =>
    let newHead : Cell := { x := head.x + g1.direction.x, y := head.y + g1.direction.y }
    let limit : Int := ((GRID_SIZE / 2 : Nat) : Int)
    if newHead.x < -limit ∨ newHead.x ≥ limit ∨ newHead.y < -limit ∨ newHead.y ≥ limit then
      some (gameOver g1, draws)
    else if g1.snake.any (sameCell newHead) then
      some (gameOver g1, draws)
    else
      let g2 : Game := { g1 with snake := newHead :: g1.snake }
      if (match g2.food with
          | some food => newHead.x == food.x && newHead.y == food.y
          | none => false) then
        spawnFood { g2 with score := g2.score + 10 } draws
      else
        some ({ g2 with snake := g2.snake.dropLast }, draws)

/-- Source `Game.update`. -/
def update (g : Game) (now : Int) (draws : List Draw) : Option (Game × List Draw) :=
  if g.isPaused || !g.isPlaying then some (g, draws)
  else if now - g.lastMoveTime > GAME_SPEED then
    moveSnake { g with lastMoveTime := now } draws
  else some (g, draws)

/-! ## Vocabulary of the statements -/

/-- The cell `moveSnake` tries to enter: after `this.direction = this.nextDirection`,
`newHead = { x: head.x + this.direction.x, y: head.y + this.direction.y }`. -/
def newHead (g : Game) (head : Cell) : Cell :=
  { x := head.x + g.nextDirection.x, y := head.y + g.nextDirection.y }

/-- A cell with x or y outside `[-6, 6)`. -/
def offBoard (c : Cell) : Prop :=
  c.x < -6 ∨ 6 ≤ c.x ∨ c.y < -6 ∨ 6 ≤ c.y

instance (c : Cell) : Decidable (offBoard c) := by
  unfold offBoard; infer_instance

/-- The move from `head` leaves the board or lands on a cell of the snake. -/
def Collides (g : Game) (head : Cell) : Prop :=
  offBoard (newHead g head) ∨ newHead g head ∈ g.snake

instance (g : Game) (head : Cell) : Decidable (Collides g head) := by
  unfold Collides; infer_instance

/-- The move from `head` eats: no collision, and the new head is the food cell. -/
def Eats (g : Game) (head : Cell) : Prop :=
  ¬ Collides g head ∧ g.food = some (newHead g head)

instance (g : Game) (head : Cell) : Decidable (Eats g head) := by
  unfold Eats; infer_instance

/-- Some draw still to come is a cell off `cells`, so that a `spawnFood` loop over
a snake `cells` ends. -/
def FreeDraw (cells : List Cell) (draws : List Draw) : Prop :=
  ∃ d ∈ draws, foodOfDraw d ∉ cells

instance (cells : List Cell) (draws : List Draw) : Decidable (FreeDraw cells draws) := by
  unfold FreeDraw; infer_instance

/-- The four unit vectors a direction can be. -/
def IsDirection (d : Cell) : Prop :=
  d = ⟨1, 0⟩ ∨ d = ⟨-1, 0⟩ ∨ d = ⟨0, 1⟩ ∨ d = ⟨0, -1⟩

instance (d : Cell) : Decidable (IsDirection d) := by
  unfold IsDirection; infer_instance

/-- The exact reverse `(-x, -y)` of a direction. -/
def reverse (d : Cell) : Cell :=
  { x := -d.x, y := -d.y }

/-- The direction a key is mapped to by the `switch` of `handleInput`. -/
def keyDirection (key : String) : Option Cell :=
  if key = "ArrowUp" ∨ key = "w" ∨ key = "W" then some ⟨0, -1⟩
  else if key = "ArrowDown" ∨ key = "s" ∨ key = "S" then some ⟨0, 1⟩
  else if key = "ArrowLeft" ∨ key = "a" ∨ key = "A" then some ⟨-1, 0⟩
  else if key = "ArrowRight" ∨ key = "d" ∨ key = "D" then some ⟨1, 0⟩
  else none

/-- The states the program can be in: the `Game` literal, and every state a
normally returning call of `startGame`, `handleInput`, `togglePause`, `update`
or `moveSnake` leaves behind, whatever the key, the clock and the draws. -/
inductive Reachable : Game → Prop
  | initial : Reachable Game.initial
  | startGame {g g' : Game} {rest : List Draw} (now : Int) (draws : List Draw) :
      Reachable g → startGame g now draws = some (g', rest) → Reachable g'
  | handleInput {g g' : Game} {rest : List Draw} (key : String) (now : Int)
      (draws : List Draw) :
      Reachable g → handleInput g key now draws = some (g', rest) → Reachable g'
  | togglePause {g : Game} (now : Int) : Reachable g → Reachable (togglePause g now)
  | update {g g' : Game} {rest : List Draw} (now : Int) (draws : List Draw) :
      Reachable g → update g now draws = some (g', rest) → Reachable g'
  | moveSnake {g g' : Game} {rest : List Draw} (draws : List Draw) :
      Reachable g → moveSnake g draws = some (g', rest) → Reachable g'

/-! ## Concrete states -/

/-- A playing state with the snake of `startGame` heading right, food away from
its path. -/
def straightGame : Game :=
  { snake := [⟨0, 0⟩, ⟨-1, 0⟩, ⟨-2, 0⟩]
    direction := ⟨1, 0⟩
    nextDirection := ⟨1, 0⟩
    food := some ⟨3, 3⟩
    score := 0
    isPlaying := true
    isPaused := false
    lastMoveTime := 0 }

/-- The state `straightGame` with the food right in front of the head. -/
def feedGame : Game :=
  { straightGame with food := some ⟨1, 0⟩ }

/-- A playing state with the head on the last column, heading right. -/
def wallGame : Game :=
  { straightGame with snake := [⟨5, 0⟩, ⟨4, 0⟩, ⟨3, 0⟩] }

/-- A playing state with the snake in a closed loop, about to step up onto its
own tail. -/
def loopGame : Game :=
  { straightGame with
    snake := [⟨0, 0⟩, ⟨1, 0⟩, ⟨1, 1⟩, ⟨0, 1⟩]
    nextDirection := ⟨0, 1⟩ }

/-- The state `feedGame` after the tick that eats, the next food drawn at
`(3, -4)`. -/
def grownGame : Game :=
  { feedGame with
    snake := [⟨1, 0⟩, ⟨0, 0⟩, ⟨-1, 0⟩, ⟨-2, 0⟩]
    food := some ⟨3, -4⟩
    score := 10 }

/-- The state `straightGame` with a turn down the screen latched. -/
def turnedGame : Game :=
  { straightGame with nextDirection := ⟨0, 1⟩ }

/-- The state `straightGame`, paused. -/
def pausedGame : Game :=
  { straightGame with isPaused := true }

/-- The draw `(i, j)`, for `i` and `j` below `GRID_SIZE`. -/
def draw (i j : Nat) (hi : i < GRID_SIZE) (hj : j < GRID_SIZE) : Draw :=
  (⟨i, hi⟩, ⟨j, hj⟩)

/-! ## Matrix helpers and the grid-to-world map -/

/-- A `Float32Array` of length 16, entry `m[n]` being `m n`. -/
abbrev Mat4 (R : Type) : Type := Fin 16 → R

/-- Source `mat4Create`. -/
def mat4Create {R : Type} [CommRing R] : Mat4 R :=
  ![1, 0, 0, 0,
    0, 1, 0, 0,
    0, 0, 1, 0,
    0, 0, 0, 1]

/-- Source `mat4Multiply`: `out` starts as sixteen zeros, and the loop body runs
for `i = 0, 1, 2, 3`, each pass writing `out[i]`, `out[i + 4]`, `out[i + 8]` and
`out[i + 12]`. -/
def mat4Multiply {R : Type} [CommRing R] (a b : Mat4 R) : Mat4 R :=
  (List.finRange 4).foldl
    (fun out i =>
      let ai0 := a ⟨i.val * 4, by omega⟩
      let ai1 := a ⟨i.val * 4 + 1, by omega⟩
      let ai2 := a ⟨i.val * 4 + 2, by omega⟩
      let ai3 := a ⟨i.val * 4 + 3, by omega⟩
      let out := Function.update out ⟨i.val, by omega⟩
        (ai0 * b 0 + ai1 * b 4 + ai2 * b 8 + ai3 * b 12)
      let out := Function.update out ⟨i.val + 4, by omega⟩
        (ai0 * b 1 + ai1 * b 5 + ai2 * b 9 + ai3 * b 13)
      let out := Function.update out ⟨i.val + 8, by omega⟩
        (ai0 * b 2 + ai1 * b 6 + ai2 * b 10 + ai3 * b 14)
      Function.update out ⟨i.val + 12, by omega⟩
        (ai0 * b 3 + ai1 * b 7 + ai2 * b 11 + ai3 * b 15))
    (fun _ => 0)

/-- Source `mat4Translate`. -/
def mat4Translate {R : Type} [CommRing R] (m : Mat4 R) (x y z : R) : Mat4 R :=
  let t : Mat4 R :=
    ![1, 0, 0, 0,
      0, 1, 0, 0,
      0, 0, 1, 0,
      x, y, z, 1]
  mat4Multiply m t

/-- Source: `const CELL_SIZE = 1.0;` -/
def CELL_SIZE : ℚ := 1

/-- The object `{ x: ..., y: ... }` that `getCellWorldPos` returns. -/
structure WorldPos where
  x : ℚ
  y : ℚ
deriving DecidableEq

/-- Source `Game.getCellWorldPos`. -/
def getCellWorldPos (cellX cellY : Int) : WorldPos :=
  let worldSize : ℚ := (GRID_SIZE : ℚ) * CELL_SIZE
  let offsetX : ℚ := -worldSize / 2 + CELL_SIZE / 2
  let offsetY : ℚ := -worldSize / 2 + CELL_SIZE / 2
  { x := offsetX + (cellX : ℚ) * CELL_SIZE
    y := offsetY + (cellY : ℚ) * CELL_SIZE }

/-- The board quad of `renderBoardGrid`: its `boardPositions` are the two
triangles with corners `(±worldSize / 2, ±worldSize / 2, 0)`, so a point is on
it when both coordinates are between `-worldSize / 2` and `worldSize / 2`. -/
def onBoard (p : WorldPos) : Prop :=
  -((GRID_SIZE : ℚ) * CELL_SIZE) / 2 ≤ p.x ∧ p.x ≤ (GRID_SIZE : ℚ) * CELL_SIZE / 2 ∧
  -((GRID_SIZE : ℚ) * CELL_SIZE) / 2 ≤ p.y ∧ p.y ≤ (GRID_SIZE : ℚ) * CELL_SIZE / 2

/-- A 16-entry array read as a 4x4 matrix in row-major layout: entry `(i, j)` is
`m[4 * i + j]`. -/
def rowMajor {R : Type} (m : Mat4 R) : Matrix (Fin 4) (Fin 4) R :=
  fun i j => m ⟨4 * i.val + j.val, by omega⟩

/-- The array `t` that `mat4Translate` builds for `x, y, z = 1, 2, 3`. -/
def translation123 : Mat4 Int :=
  ![1, 0, 0, 0,
    0, 1, 0, 0,
    0, 0, 1, 0,
    1, 2, 3, 1]

/-! ## Lemmas on the methods -/

theorem any_sameCell (c : Cell) (l : List Cell) :
    l.any (sameCell c) = true ↔ c ∈ l := by
  induction l with
  | nil => simp
  | cons a l ih =>
    rw [List.any_cons, Bool.or_eq_true, ih, List.mem_cons]
    have : sameCell c a = true ↔ c = a := by
      cases c; cases a
      simp only [sameCell, Bool.and_eq_true, beq_iff_eq, Cell.mk.injEq]
      constructor
      · rintro ⟨h1, h2⟩; exact ⟨h1.symm, h2.symm⟩
      · rintro ⟨h1, h2⟩; exact ⟨h1.symm, h2.symm⟩
    rw [this]

/-- What a returning `spawnFood` did: it stored an accepted draw, a cell off the
snake, and touched nothing else. -/
theorem spawnFood_some {g g' : Game} {draws rest : List Draw}
    (h : spawnFood g draws = some (g', rest)) :
    ∃ d ∈ draws, foodOfDraw d ∉ g.snake ∧ g' = { g with food := some (foodOfDraw d) } := by
  induction draws with
  | nil => simp [spawnFood] at h
  | cons d ds ih =>
    by_cases hd : foodOfDraw d ∈ g.snake
    · have hany := (any_sameCell (foodOfDraw d) g.snake).2 hd
      simp only [spawnFood, hany, if_true] at h
      obtain ⟨d', hmem, hfree, heq⟩ := ih h
      exact ⟨d', List.mem_cons_of_mem _ hmem, hfree, heq⟩
    · have hany : ¬ g.snake.any (sameCell (foodOfDraw d)) = true :=
        fun hc => hd ((any_sameCell _ _).1 hc)
      simp only [spawnFood, hany] at h
      simp only [Bool.false_eq_true, if_false, Option.some.injEq, Prod.mk.injEq] at h
      exact ⟨d, List.mem_cons_self _ _, hd, h.1.symm⟩

/-- The loop of `spawnFood` ends as soon as a draw is off the snake. -/
theorem spawnFood_isSome {g : Game} {draws : List Draw} (h : FreeDraw g.snake draws) :
    ∃ g' rest, spawnFood g draws = some (g', rest) := by
  obtain ⟨d, hmem, hfree⟩ := h
  induction draws with
  | nil => simp at hmem
  | cons e ds ih =>
    by_cases he : foodOfDraw e ∈ g.snake
    · have hany := (any_sameCell (foodOfDraw e) g.snake).2 he
      have hd : d ∈ ds := by
        rcases List.mem_cons.1 hmem with rfl | hd
        · exact absurd he hfree
        · exact hd
      simp only [spawnFood, hany, if_true]
      exact ih hd
    · have hany : ¬ g.snake.any (sameCell (foodOfDraw e)) = true :=
        fun hc => he ((any_sameCell _ _).1 hc)
      exact ⟨_, _, by simp only [spawnFood, hany]; rfl⟩

/-- The three ways through `moveSnake` on a snake with a head. -/
theorem moveSnake_eq (g : Game) (head : Cell) (tail : List Cell) (draws : List Draw)
    (hs : g.snake = head :: tail) :
    moveSnake g draws =
      if Collides g head then
        some ({ g with direction := g.nextDirection, isPlaying := false }, draws)
      else if g.food = some (newHead g head) then
        spawnFood { g with direction := g.nextDirection
                           snake := newHead g head :: g.snake
                           score := g.score + 10 } draws
      else
        some ({ g with direction := g.nextDirection
                       snake := newHead g head :: g.snake.dropLast }, draws) := by
  have hlim : ((GRID_SIZE / 2 : Nat) : Int) = 6 := by decide
  have hfood : (match g.food with
      | some food => (newHead g head).x == food.x && (newHead g head).y == food.y
      | none => false) = true ↔ g.food = some (newHead g head) := by
    cases hf : g.food with
    | none => simp
    | some f =>
      cases f
      simp only [Bool.and_eq_true, beq_iff_eq, Option.some.injEq]
      constructor
      · rintro ⟨h1, h2⟩
        cases hn : newHead g head
        rw [hn] at h1 h2
        simp only at h1 h2
        rw [h1, h2]
      · intro h
        rw [← h]
        exact ⟨rfl, rfl⟩
  unfold moveSnake
  simp only [hs]
  rw [← hs]
  by_cases hwall : offBoard (newHead g head)
  · have hc : Collides g head := Or.inl hwall
    rw [if_pos hc]
    unfold offBoard newHead at hwall
    rw [hlim, if_pos hwall]
    rfl
  · by_cases hself : newHead g head ∈ g.snake
    · have hc : Collides g head := Or.inr hself
      rw [if_pos hc]
      have hw := hwall
      unfold offBoard newHead at hw
      rw [hlim, if_neg hw]
      have hany := (any_sameCell (newHead g head) g.snake).2 hself
      unfold newHead at hany
      rw [if_pos hany]
      rfl
    · have hc : ¬ Collides g head := fun h => h.elim hwall hself
      rw [if_neg hc]
      have hw := hwall
      unfold offBoard newHead at hw
      rw [hlim, if_neg hw]
      have hany : ¬ g.snake.any (sameCell (newHead g head)) = true :=
        fun h => hself ((any_sameCell _ _).1 h)
      unfold newHead at hany
      rw [if_neg hany]
      by_cases hf : g.food = some (newHead g head)
      · rw [if_pos hf]
        have hf2 := hfood.2 hf
        unfold newHead at hf2
        rw [if_pos hf2]
        rfl
      · rw [if_neg hf]
        have hf2 : ¬ _ := fun h => hf (hfood.1 h)
        unfold newHead at hf2
        rw [if_neg hf2]
        simp only [hs, List.dropLast_cons₂, List.dropLast]
        rfl

/-- What a returning `moveSnake` left behind, by the way it took. -/
theorem moveSnake_some {g g' : Game} {head : Cell} {tail : List Cell} {draws rest : List Draw}
    (hs : g.snake = head :: tail) (h : moveSnake g draws = some (g', rest)) :
    (Collides g head ∧ rest = draws ∧
        g' = { g with direction := g.nextDirection, isPlaying := false }) ∨
    (Eats g head ∧ ∃ d ∈ draws, foodOfDraw d ∉ newHead g head :: g.snake ∧
        g' = { g with direction := g.nextDirection
                      snake := newHead g head :: g.snake
                      score := g.score + 10
                      food := some (foodOfDraw d) }) ∨
    (¬ Collides g head ∧ g.food ≠ some (newHead g head) ∧ rest = draws ∧
        g' = { g with direction := g.nextDirection
                      snake := newHead g head :: g.snake.dropLast }) := by
  rw [moveSnake_eq g head tail draws hs] at h
  by_cases hc : Collides g head
  · rw [if_pos hc] at h
    simp only [Option.some.injEq, Prod.mk.injEq] at h
    exact Or.inl ⟨hc, h.2.symm, h.1.symm⟩
  · rw [if_neg hc] at h
    by_cases hf : g.food = some (newHead g head)
    · rw [if_pos hf] at h
      obtain ⟨d, hmem, hfree, heq⟩ := spawnFood_some h
      exact Or.inr (Or.inl ⟨⟨hc, hf⟩, d, hmem, hfree, heq⟩)
    · rw [if_neg hf] at h
      simp only [Option.some.injEq, Prod.mk.injEq] at h
      exact Or.inr (Or.inr ⟨hc, hf, h.2.symm, h.1.symm⟩)

/-- A call of `moveSnake` returns on a snake with a head, unless it eats and no draw
to come is off the grown snake. -/
theorem moveSnake_isSome (g : Game) (head : Cell) (tail : List Cell) (draws : List Draw)
    (hs : g.snake = head :: tail)
    (h : Eats g head → FreeDraw (newHead g head :: g.snake) draws) :
    ∃ g' rest, moveSnake g draws = some (g', rest) := by
  rw [moveSnake_eq g head tail draws hs]
  by_cases hc : Collides g head
  · rw [if_pos hc]; exact ⟨_, _, rfl⟩
  · rw [if_neg hc]
    by_cases hf : g.food = some (newHead g head)
    · rw [if_pos hf]
      exact spawnFood_isSome (h ⟨hc, hf⟩)
    · rw [if_neg hf]; exact ⟨_, _, rfl⟩

theorem startGame_some {g g' : Game} {now : Int} {draws rest : List Draw}
    (h : startGame g now draws = some (g', rest)) :
    ∃ d ∈ draws, foodOfDraw d ∉ [(⟨0, 0⟩ : Cell), ⟨-1, 0⟩, ⟨-2, 0⟩] ∧
      g' = { snake := [⟨0, 0⟩, ⟨-1, 0⟩, ⟨-2, 0⟩]
             direction := ⟨1, 0⟩
             nextDirection := ⟨1, 0⟩
             food := some (foodOfDraw d)
             score := 0
             isPlaying := true
             isPaused := false
             lastMoveTime := now } := by
  unfold startGame at h
  dsimp only at h
  split at h
  · exact absurd h (by simp)
  · rename_i g2 rest2 hsp
    obtain ⟨d, hmem, hfree, rfl⟩ := spawnFood_some hsp
    simp only [Option.some.injEq, Prod.mk.injEq] at h
    exact ⟨d, hmem, hfree, h.1.symm⟩

theorem handleInput_some {g g' : Game} {key : String} {now : Int} {draws rest : List Draw}
    (h : handleInput g key now draws = some (g', rest)) :
    startGame g now draws = some (g', rest) ∨ g' = g ∨ g' = togglePause g now ∨
      ∃ d, IsDirection d ∧ d ≠ reverse g.direction ∧ g' = { g with nextDirection := d } := by
  unfold handleInput at h
  split_ifs at h with h1 h2 h3 h4 h5 h6 h7 h8 h9 h10 h11
  all_goals first
    | exact Or.inl h
    | (simp only [Option.some.injEq, Prod.mk.injEq] at h
       first
        | exact Or.inr (Or.inl h.1.symm)
        | exact Or.inr (Or.inr (Or.inl h.1.symm))
        | (refine Or.inr (Or.inr (Or.inr ⟨_, ?_, ?_, h.1.symm⟩))
           · unfold IsDirection; decide
           · intro hc
             have hx := congrArg Cell.x hc
             have hy := congrArg Cell.y hc
             simp only [reverse] at hx hy
             omega))

theorem update_some {g g' : Game} {now : Int} {draws rest : List Draw}
    (h : update g now draws = some (g', rest)) :
    g' = g ∨ moveSnake { g with lastMoveTime := now } draws = some (g', rest) := by
  unfold update at h
  split_ifs at h
  · simp only [Option.some.injEq, Prod.mk.injEq] at h; exact Or.inl h.1.symm
  · exact Or.inr h
  · simp only [Option.some.injEq, Prod.mk.injEq] at h; exact Or.inl h.1.symm

theorem moveSnake_snake_ne_nil {g g' : Game} {draws rest : List Draw}
    (h : moveSnake g draws = some (g', rest)) : ∃ head tail, g.snake = head :: tail := by
  cases hs : g.snake with
  | nil => simp [moveSnake, hs] at h
  | cons head tail => exact ⟨head, tail, rfl⟩

/-- Induction over the reachable states, with `handleInput` and `update` taken
apart into the field updates they are made of. -/
theorem reachable_induction {P : Game → Prop} (h0 : P Game.initial)
    (hstart : ∀ g now draws g' rest, startGame g now draws = some (g', rest) → P g')
    (hpause : ∀ g now, P g → P (togglePause g now))
    (hdir : ∀ g d, P g → IsDirection d → d ≠ reverse g.direction →
      P { g with nextDirection := d })
    (hclock : ∀ g now, P g → P { g with lastMoveTime := now })
    (hmove : ∀ g draws g' rest, P g → moveSnake g draws = some (g', rest) → P g')
    {g : Game} (h : Reachable g) : P g := by
  induction h with
  | initial => exact h0
  | startGame now draws _ hst _ => exact hstart _ now draws _ _ hst
  | handleInput key now draws _ hin ih =>
    rcases handleInput_some hin with hst | rfl | rfl | ⟨d, hd, hne, rfl⟩
    · exact hstart _ now draws _ _ hst
    · exact ih
    · exact hpause _ now ih
    · exact hdir _ d ih hd hne
  | togglePause now _ ih => exact hpause _ now ih
  | update now draws _ hup ih =>
    rcases update_some hup with rfl | hmv
    · exact ih
    · exact hmove _ draws _ _ (hclock _ now ih) hmv
  | moveSnake draws _ hmv ih => exact hmove _ draws _ _ ih hmv

theorem togglePause_fields (g : Game) (now : Int) :
    (togglePause g now).snake = g.snake ∧ (togglePause g now).direction = g.direction ∧
    (togglePause g now).nextDirection = g.nextDirection ∧
    (togglePause g now).food = g.food ∧ (togglePause g now).score = g.score ∧
    (togglePause g now).isPlaying = g.isPlaying ∧
    (togglePause g now).isPaused = !g.isPaused := by
  unfold togglePause
  dsimp only
  split <;> exact ⟨rfl, rfl, rfl, rfl, rfl, rfl, rfl⟩

theorem moveSnake_nodup {g g' : Game} {draws rest : List Draw} (hn : g.snake.Nodup)
    (h : moveSnake g draws = some (g', rest)) : g'.snake.Nodup := by
  obtain ⟨head, tail, hs⟩ := moveSnake_snake_ne_nil h
  rcases moveSnake_some hs h with ⟨_, _, rfl⟩ | ⟨he, d, _, _, rfl⟩ | ⟨hc, _, _, rfl⟩
  · exact hn
  · exact List.nodup_cons.2 ⟨fun hm => he.1 (Or.inr hm), hn⟩
  · exact List.nodup_cons.2
      ⟨fun hm => hc (Or.inr (List.dropLast_subset _ hm)),
        hn.sublist (List.dropLast_sublist _)⟩

theorem moveSnake_food_off_snake {g g' : Game} {draws rest : List Draw}
    (hf : ∀ f, g.food = some f → f ∉ g.snake)
    (h : moveSnake g draws = some (g', rest)) : ∀ f, g'.food = some f → f ∉ g'.snake := by
  obtain ⟨head, tail, hs⟩ := moveSnake_snake_ne_nil h
  rcases moveSnake_some hs h with ⟨_, _, rfl⟩ | ⟨he, d, _, hfree, rfl⟩ | ⟨hc, hne, _, rfl⟩
  · exact hf
  · intro f hfood
    simp only [Option.some.injEq] at hfood
    rw [← hfood]; exact hfree
  · intro f hfood hm
    rcases List.mem_cons.1 hm with rfl | hm
    · exact hne hfood
    · exact hf f hfood (List.dropLast_subset _ hm)

/-! ## The tick: `moveSnake` -/

/-- C1: on a playing state whose snake has a head, a returning `moveSnake` has set
`isPlaying` to false if and only if `newHead = head + nextDirection` has x or y
outside `[-6, 6)` or is a cell of the snake (any segment, the tail included), and
has left it true in every other case. A colliding call always returns, without
using a draw; a non-colliding call returns when it does not eat, or when a draw
off the grown snake is still to come. -/
theorem moveSnake_gameOver_iff (g : Game) (head : Cell) (tail : List Cell)
    (draws : List Draw) (hplay : g.isPlaying = true) (hs : g.snake = head :: tail) :
    (∀ g' rest, moveSnake g draws = some (g', rest) →
      (g'.isPlaying = false ↔
        (offBoard (newHead g head) ∨ newHead g head ∈ g.snake)) ∧
      (¬ (offBoard (newHead g head) ∨ newHead g head ∈ g.snake) → g'.isPlaying = true)) ∧
    ((offBoard (newHead g head) ∨ newHead g head ∈ g.snake) →
      ∃ g', moveSnake g draws = some (g', draws) ∧ g'.isPlaying = false) ∧
    (¬ (offBoard (newHead g head) ∨ newHead g head ∈ g.snake) →
      (g.food ≠ some (newHead g head) ∨ FreeDraw (newHead g head :: g.snake) draws) →
      ∃ g' rest, moveSnake g draws = some (g', rest) ∧ g'.isPlaying = true) := by
  have key : ∀ g' rest, moveSnake g draws = some (g', rest) →
      (g'.isPlaying = false ↔ Collides g head) := by
    intro g' rest h
    rcases moveSnake_some hs h with ⟨hc, _, rfl⟩ | ⟨he, d, _, _, rfl⟩ | ⟨hc, _, _, rfl⟩
    · exact ⟨fun _ => hc, fun _ => rfl⟩
    · simp only [hplay]
      exact ⟨fun hh => absurd hh (by decide), fun hh => absurd hh he.1⟩
    · simp only [hplay]
      exact ⟨fun hh => absurd hh (by decide), fun hh => absurd hh hc⟩
  refine ⟨fun g' rest h => ⟨key g' rest h, fun hn => ?_⟩, fun hc => ?_, fun hn hd => ?_⟩
  · cases hp : g'.isPlaying with
    | true => rfl
    | false => exact absurd ((key g' rest h).1 hp) hn
  · refine ⟨{ g with direction := g.nextDirection, isPlaying := false }, ?_, rfl⟩
    rw [moveSnake_eq g head tail draws hs]
    exact if_pos hc
  · obtain ⟨g', rest, h⟩ := moveSnake_isSome g head tail draws hs
      (fun he => hd.elim (fun hne => absurd he.2 hne) id)
    refine ⟨g', rest, h, ?_⟩
    cases hp : g'.isPlaying with
    | true => rfl
    | false => exact absurd ((key g' rest h).1 hp) hn

/-- Witness of C1: stepping onto the tail of a closed loop, and stepping off the
last column, both end the game. -/
theorem moveSnake_gameOver_iff_witness :
    (loopGame.isPlaying = true ∧ loopGame.snake = ⟨0, 0⟩ :: [⟨1, 0⟩, ⟨1, 1⟩, ⟨0, 1⟩] ∧
      ∃ g', moveSnake loopGame [] = some (g', []) ∧ g'.isPlaying = false) ∧
    (wallGame.isPlaying = true ∧ wallGame.snake = ⟨5, 0⟩ :: [⟨4, 0⟩, ⟨3, 0⟩] ∧
      ∃ g', moveSnake wallGame [] = some (g', []) ∧ g'.isPlaying = false) :=
  ⟨⟨rfl, rfl,
      (moveSnake_gameOver_iff loopGame ⟨0, 0⟩ [⟨1, 0⟩, ⟨1, 1⟩, ⟨0, 1⟩] [] rfl rfl).2.1
        (by decide)⟩,
    ⟨rfl, rfl,
      (moveSnake_gameOver_iff wallGame ⟨5, 0⟩ [⟨4, 0⟩, ⟨3, 0⟩] [] rfl rfl).2.1
        (by decide)⟩⟩

/-- C2: on a playing state whose move does not collide, the snake after
`moveSnake` is exact and head-first. If `newHead` is not the food, the call
returns with `newHead` followed by the old snake without its last cell, score and
food unchanged. If `newHead` is the food, a returning call leaves `newHead`
followed by the whole old snake and the score raised by 10, and the call returns
as soon as a draw off the grown snake is still to come. -/
theorem moveSnake_snake_exact (g : Game) (head : Cell) (tail : List Cell)
    (draws : List Draw) (_hplay : g.isPlaying = true) (hs : g.snake = head :: tail)
    (hno : ¬ (offBoard (newHead g head) ∨ newHead g head ∈ g.snake)) :
    (g.food ≠ some (newHead g head) →
      ∃ g', moveSnake g draws = some (g', draws) ∧
        g'.snake = newHead g head :: g.snake.dropLast ∧
        g'.score = g.score ∧ g'.food = g.food) ∧
    (g.food = some (newHead g head) →
      (∀ g' rest, moveSnake g draws = some (g', rest) →
        g'.snake = newHead g head :: g.snake ∧ g'.score = g.score + 10) ∧
      (FreeDraw (newHead g head :: g.snake) draws →
        ∃ g' rest, moveSnake g draws = some (g', rest) ∧
          g'.snake = newHead g head :: g.snake ∧ g'.score = g.score + 10)) := by
  have hc : ¬ Collides g head := hno
  have eat : g.food = some (newHead g head) →
      ∀ g' rest, moveSnake g draws = some (g', rest) →
        g'.snake = newHead g head :: g.snake ∧ g'.score = g.score + 10 := by
    intro hf g' rest h
    rcases moveSnake_some hs h with ⟨hc', _⟩ | ⟨_, d, _, _, rfl⟩ | ⟨_, hne, _⟩
    · exact absurd hc' hc
    · exact ⟨rfl, rfl⟩
    · exact absurd hf hne
  refine ⟨fun hne => ?_, fun hf => ⟨eat hf, fun hd => ?_⟩⟩
  · refine ⟨{ g with direction := g.nextDirection
                     snake := newHead g head :: g.snake.dropLast }, ?_, rfl, rfl, rfl⟩
    rw [moveSnake_eq g head tail draws hs, if_neg hc, if_neg hne]
  · obtain ⟨g', rest, h⟩ := moveSnake_isSome g head tail draws hs (fun _ => hd)
    exact ⟨g', rest, h, eat hf g' rest h⟩

/-- Witness of C2, on the snake `[(0,0),(-1,0),(-2,0)]` moving `(1,0)`: with the
food elsewhere it becomes `[(1,0),(0,0),(-1,0)]` at score 0, and with the food at
`(1,0)` it becomes `[(1,0),(0,0),(-1,0),(-2,0)]` at score 10. -/
theorem moveSnake_snake_exact_witness :
    (∃ g', moveSnake straightGame [] = some (g', []) ∧
      g'.snake = [⟨1, 0⟩, ⟨0, 0⟩, ⟨-1, 0⟩] ∧ g'.score = 0 ∧ g'.food = some ⟨3, 3⟩) ∧
    (∃ g' rest,
      moveSnake feedGame [draw 6 6 (by decide) (by decide), draw 9 2 (by decide) (by decide)]
        = some (g', rest) ∧
      g'.snake = [⟨1, 0⟩, ⟨0, 0⟩, ⟨-1, 0⟩, ⟨-2, 0⟩] ∧ g'.score = 10) :=
  ⟨(moveSnake_snake_exact straightGame ⟨0, 0⟩ [⟨-1, 0⟩, ⟨-2, 0⟩] [] rfl rfl
      (by decide)).1 (by decide),
    ((moveSnake_snake_exact feedGame ⟨0, 0⟩ [⟨-1, 0⟩, ⟨-2, 0⟩] _ rfl rfl
      (by decide)).2 rfl).2 (by decide)⟩

/-- C5: on a playing state whose snake has a head, the snake after a returning
`moveSnake` is one cell longer than before if the tick ate (no collision and
`newHead` is the food cell) and as long as before otherwise, collisions
included. The call returns unless it eats with no draw off the grown snake to
come. -/
theorem moveSnake_length (g : Game) (head : Cell) (tail : List Cell)
    (draws : List Draw) (_hplay : g.isPlaying = true) (hs : g.snake = head :: tail) :
    (∀ g' rest, moveSnake g draws = some (g', rest) →
      g'.snake.length = g.snake.length + (if Eats g head then 1 else 0)) ∧
    ((Eats g head → FreeDraw (newHead g head :: g.snake) draws) →
      ∃ g' rest, moveSnake g draws = some (g', rest) ∧
        g'.snake.length = g.snake.length + (if Eats g head then 1 else 0)) := by
  have len : ∀ g' rest, moveSnake g draws = some (g', rest) →
      g'.snake.length = g.snake.length + (if Eats g head then 1 else 0) := by
    intro g' rest h
    rcases moveSnake_some hs h with ⟨hc, _, rfl⟩ | ⟨he, d, _, _, rfl⟩ | ⟨_, hne, _, rfl⟩
    · rw [if_neg (fun he : Eats g head => he.1 hc)]; rfl
    · rw [if_pos he]; rfl
    · rw [if_neg (fun he : Eats g head => hne he.2)]
      simp [hs]
  refine ⟨len, fun hd => ?_⟩
  obtain ⟨g', rest, h⟩ := moveSnake_isSome g head tail draws hs hd
  exact ⟨g', rest, h, len g' rest h⟩

/-- Witness of C5: the three-cell snake has four cells after eating. -/
theorem moveSnake_length_witness :
    ∃ g' rest, moveSnake feedGame [draw 9 2 (by decide) (by decide)] = some (g', rest) ∧
      g'.snake.length = 3 + 1 :=
  (moveSnake_length feedGame ⟨0, 0⟩ [⟨-1, 0⟩, ⟨-2, 0⟩] _ rfl rfl).2
    (fun _ => by decide)

/-- C6: on a playing state whose snake has a head, the score after a returning
`moveSnake` is the score before plus exactly 10 if the tick ate (no collision and
`newHead` is the food cell), and the score before in every other case: plain
move, wall collision, self collision. The call returns unless it eats with no
draw off the grown snake to come. -/
theorem moveSnake_score (g : Game) (head : Cell) (tail : List Cell)
    (draws : List Draw) (_hplay : g.isPlaying = true) (hs : g.snake = head :: tail) :
    (∀ g' rest, moveSnake g draws = some (g', rest) →
      g'.score = g.score + (if Eats g head then 10 else 0)) ∧
    ((Eats g head → FreeDraw (newHead g head :: g.snake) draws) →
      ∃ g' rest, moveSnake g draws = some (g', rest) ∧
        g'.score = g.score + (if Eats g head then 10 else 0)) := by
  have sc : ∀ g' rest, moveSnake g draws = some (g', rest) →
      g'.score = g.score + (if Eats g head then 10 else 0) := by
    intro g' rest h
    rcases moveSnake_some hs h with ⟨hc, _, rfl⟩ | ⟨he, d, _, _, rfl⟩ | ⟨_, hne, _, rfl⟩
    · rw [if_neg (fun he : Eats g head => he.1 hc)]; rfl
    · rw [if_pos he]
    · rw [if_neg (fun he : Eats g head => hne he.2)]; rfl
  refine ⟨sc, fun hd => ?_⟩
  obtain ⟨g', rest, h⟩ := moveSnake_isSome g head tail draws hs hd
  exact ⟨g', rest, h, sc g' rest h⟩

/-- Witness of C6: the tick that eats the food at `(1, 0)` returns and takes the
score from 0 to 10, the state it returns being `grownGame`; the plain move, the
move into the wall and the move onto the own tail return with the score still
0. -/
theorem moveSnake_score_witness :
    (∃ g' rest, moveSnake feedGame [draw 9 2 (by decide) (by decide)] = some (g', rest) ∧
      g'.score = 0 + 10) ∧
    (moveSnake feedGame [draw 9 2 (by decide) (by decide)] = some (grownGame, []) ∧
      grownGame.score = 0 + 10) ∧
    (∃ g' rest, moveSnake straightGame [] = some (g', rest) ∧ g'.score = 0 + 0) ∧
    (∃ g' rest, moveSnake wallGame [] = some (g', rest) ∧ g'.score = 0 + 0) ∧
    (∃ g' rest, moveSnake loopGame [] = some (g', rest) ∧ g'.score = 0 + 0) :=
  ⟨(moveSnake_score feedGame ⟨0, 0⟩ [⟨-1, 0⟩, ⟨-2, 0⟩] _ rfl rfl).2
      (fun _ => by decide),
    ⟨by decide,
      (moveSnake_score feedGame ⟨0, 0⟩ [⟨-1, 0⟩, ⟨-2, 0⟩]
        [draw 9 2 (by decide) (by decide)] rfl rfl).1 grownGame [] (by decide)⟩,
    (moveSnake_score straightGame ⟨0, 0⟩ [⟨-1, 0⟩, ⟨-2, 0⟩] [] rfl rfl).2
      (fun he => absurd he (by decide)),
    (moveSnake_score wallGame ⟨5, 0⟩ [⟨4, 0⟩, ⟨3, 0⟩] [] rfl rfl).2
      (fun he => absurd he (by decide)),
    (moveSnake_score loopGame ⟨0, 0⟩ [⟨1, 0⟩, ⟨1, 1⟩, ⟨0, 1⟩] [] rfl rfl).2
      (fun he => absurd he (by decide))⟩

/-! ## Input and clock: `handleInput`, `togglePause`, `update` -/

theorem keyDirection_not_pause {key : String} {dir : Cell}
    (hkey : keyDirection key = some dir) : toLowerCase key ≠ "p" := by
  unfold keyDirection at hkey
  split_ifs at hkey with h1 h2 h3 h4
  · rcases h1 with rfl | rfl | rfl <;> decide
  · rcases h2 with rfl | rfl | rfl <;> decide
  · rcases h3 with rfl | rfl | rfl <;> decide
  · rcases h4 with rfl | rfl | rfl <;> decide

/-- C7: on a playing, unpaused state whose committed direction is one of the four
unit vectors, `handleInput` with a key mapped to the exact reverse of that
direction returns the state as it was (`nextDirection` and `direction`
unchanged), and with a key mapped to any other of the four directions it returns
the state with `nextDirection` set to that direction and nothing else changed,
whatever `nextDirection` held before. -/
theorem handleInput_direction (g : Game) (key : String) (dir : Cell) (now : Int)
    (draws : List Draw) (hplay : g.isPlaying = true) (hpause : g.isPaused = false)
    (hdir : IsDirection g.direction) (hkey : keyDirection key = some dir) :
    (dir = reverse g.direction → handleInput g key now draws = some (g, draws)) ∧
    (dir ≠ reverse g.direction →
      handleInput g key now draws = some ({ g with nextDirection := dir }, draws)) := by
  have hp := keyDirection_not_pause hkey
  have hgate : (!g.isPlaying || g.isPaused) = false := by rw [hplay, hpause]; rfl
  have hrev : ∀ d : Cell, d = reverse g.direction ↔ g.direction = reverse d := by
    intro d
    constructor
    · intro h; rw [h]; simp [reverse]
    · intro h; rw [h]; simp [reverse]
  unfold handleInput
  rw [hgate]
  simp only [Bool.false_eq_true, if_false, if_neg hp]
  unfold keyDirection at hkey
  split_ifs at hkey with h1 h2 h3 h4 <;>
    simp only [Option.some.injEq] at hkey <;> subst hkey
  · rw [if_pos h1, hrev]
    rcases hdir with hd | hd | hd | hd <;> rw [hd] <;> simp [reverse]
  · rw [if_neg h1, if_pos h2, hrev]
    rcases hdir with hd | hd | hd | hd <;> rw [hd] <;> simp [reverse]
  · rw [if_neg h1, if_neg h2, if_pos h3, hrev]
    rcases hdir with hd | hd | hd | hd <;> rw [hd] <;> simp [reverse]
  · rw [if_neg h1, if_neg h2, if_neg h3, if_pos h4, hrev]
    rcases hdir with hd | hd | hd | hd <;> rw [hd] <;> simp [reverse]

/-- Witness of C7: while heading `(1, 0)`, the keys ArrowLeft, a and A change
nothing, and ArrowUp pressed after a latched turn down overwrites it. -/
theorem handleInput_direction_witness :
    (handleInput straightGame "ArrowLeft" 5 [] = some (straightGame, []) ∧
      handleInput straightGame "a" 5 [] = some (straightGame, []) ∧
      handleInput straightGame "A" 5 [] = some (straightGame, [])) ∧
    handleInput turnedGame "ArrowUp" 5 []
      = some ({ turnedGame with nextDirection := ⟨0, -1⟩ }, []) :=
  ⟨⟨(handleInput_direction straightGame "ArrowLeft" ⟨-1, 0⟩ 5 [] rfl rfl
        (by decide) (by decide)).1 (by decide),
      (handleInput_direction straightGame "a" ⟨-1, 0⟩ 5 [] rfl rfl
        (by decide) (by decide)).1 (by decide),
      (handleInput_direction straightGame "A" ⟨-1, 0⟩ 5 [] rfl rfl
        (by decide) (by decide)).1 (by decide)⟩,
    (handleInput_direction turnedGame "ArrowUp" ⟨0, -1⟩ 5 [] rfl rfl
      (by decide) (by decide)).2 (by decide)⟩

/-- The pause key on a playing, unpaused state: `togglePause` runs, the state is
paused and nothing else changes. -/
theorem handleInput_pause_playing (g : Game) (key : String) (now : Int) (draws : List Draw)
    (hplay : g.isPlaying = true) (hpause : g.isPaused = false)
    (hkey : key = "p" ∨ key = "P") :
    handleInput g key now draws = some ({ g with isPaused := true }, draws) := by
  have hgate : (!g.isPlaying || g.isPaused) = false := by rw [hplay, hpause]; rfl
  have hp : toLowerCase key = "p" := by rcases hkey with rfl | rfl <;> decide
  unfold handleInput
  rw [hgate]
  simp only [Bool.false_eq_true, if_false, if_pos hp, togglePause, hpause]
  rfl

/-- Any key on a paused game (`isPlaying` and `isPaused` both true), the pause key
included: the first `if` of `handleInput` returns before `togglePause` is
reached, and the state stays as it was. -/
theorem handleInput_paused (g : Game) (key : String) (now : Int) (draws : List Draw)
    (hplay : g.isPlaying = true) (hpause : g.isPaused = true) :
    handleInput g key now draws = some (g, draws) := by
  unfold handleInput
  simp [hplay, hpause]

/-- C9, the code at the failing input: the key `p` pauses the playing state
`straightGame`, but on the paused state `pausedGame` both `p` and `P` leave
`isPaused` true, although `togglePause`, had it been called, would resume. -/
theorem handleInput_pause_key_stuck :
    handleInput straightGame "p" 3 [] = some (pausedGame, []) ∧
    handleInput pausedGame "p" 7 [] = some (pausedGame, []) ∧
    handleInput pausedGame "P" 7 [] = some (pausedGame, []) ∧
    pausedGame.isPaused = true ∧
    (togglePause pausedGame 7).isPaused = false := by
  decide

theorem moveSnake_lastMoveTime {g g' : Game} {draws rest : List Draw}
    (h : moveSnake g draws = some (g', rest)) : g'.lastMoveTime = g.lastMoveTime := by
  obtain ⟨head, tail, hs⟩ := moveSnake_snake_ne_nil h
  rcases moveSnake_some hs h with ⟨_, _, rfl⟩ | ⟨_, d, _, _, rfl⟩ | ⟨_, _, _, rfl⟩ <;> rfl

/-- C10: one call of `update` at clock reading `now` applies at most one
`moveSnake`. When the game is playing, not paused and `now - lastMoveTime > 150`,
it is exactly one `moveSnake`, on the state with `lastMoveTime` set to `now`,
however long ago the last move was, and the state it returns has
`lastMoveTime = now`. Otherwise (paused, not playing, or no more than 150
elapsed) `update` returns the state as it was, no draw used. -/
theorem update_gate (g : Game) (now : Int) (draws : List Draw) :
    ((g.isPlaying = true ∧ g.isPaused = false ∧ now - g.lastMoveTime > 150) →
      update g now draws = moveSnake { g with lastMoveTime := now } draws ∧
      ∀ g' rest, update g now draws = some (g', rest) → g'.lastMoveTime = now) ∧
    (¬ (g.isPlaying = true ∧ g.isPaused = false ∧ now - g.lastMoveTime > 150) →
      update g now draws = some (g, draws)) := by
  constructor
  · rintro ⟨hplay, hpause, ht⟩
    have hu : update g now draws = moveSnake { g with lastMoveTime := now } draws := by
      unfold update
      have hgate : (g.isPaused || !g.isPlaying) = false := by rw [hplay, hpause]; rfl
      rw [hgate]
      simp only [Bool.false_eq_true, if_false]
      exact if_pos ht
    refine ⟨hu, fun g' rest h => ?_⟩
    rw [hu] at h
    exact moveSnake_lastMoveTime h
  · intro hn
    unfold update
    by_cases hgate : (g.isPaused || !g.isPlaying) = true
    · rw [if_pos hgate]
    · rw [if_neg hgate]
      have ht : ¬ now - g.lastMoveTime > GAME_SPEED := by
        intro ht
        apply hn
        cases hp : g.isPlaying <;> cases hq : g.isPaused <;> simp [hp, hq] at hgate
        exact ⟨rfl, rfl, ht⟩
      rw [if_neg ht]

/-- Witness of C10: 1000 ms after the last move, more than six intervals, one
call of `update` moves the snake by one cell only. -/
theorem update_gate_witness :
    update straightGame 1000 []
      = some ({ straightGame with snake := [⟨1, 0⟩, ⟨0, 0⟩, ⟨-1, 0⟩], lastMoveTime := 1000 }, []) ∧
    update pausedGame 1000 [] = some (pausedGame, []) ∧
    update straightGame 150 [] = some (straightGame, []) :=
  ⟨((update_gate straightGame 1000 []).1 ⟨rfl, rfl, by decide⟩).1.trans (by decide),
    (update_gate pausedGame 1000 []).2 (by decide),
    (update_gate straightGame 150 []).2 (by decide)⟩

/-! ## Invariants of the reachable states -/

theorem straightGame_reachable : Reachable straightGame :=
  @Reachable.startGame Game.initial straightGame [] 0 [draw 9 9 (by decide) (by decide)]
    Reachable.initial (by decide)

theorem feedGame_reachable : Reachable feedGame :=
  @Reachable.startGame Game.initial feedGame [] 0 [draw 7 6 (by decide) (by decide)]
    Reachable.initial (by decide)

theorem grownGame_reachable : Reachable grownGame :=
  @Reachable.moveSnake feedGame grownGame [] [draw 9 2 (by decide) (by decide)]
    feedGame_reachable (by decide)

theorem turnedGame_reachable : Reachable turnedGame :=
  @Reachable.handleInput { straightGame with nextDirection := ⟨0, -1⟩ } turnedGame []
    "ArrowDown" 2 []
    (@Reachable.handleInput straightGame { straightGame with nextDirection := ⟨0, -1⟩ } []
      "ArrowUp" 1 [] straightGame_reachable (by decide))
    (by decide)

/-- Every reachable playing state has a snake with a head, so the theorems on
`moveSnake` above apply to every tick the program can run. -/
theorem snake_ne_nil_of_playing (g : Game) (h : Reachable g) (hplay : g.isPlaying = true) :
    ∃ head tail, g.snake = head :: tail := by
  have inv : g.isPlaying = true → g.snake ≠ [] := by
    refine reachable_induction (P := fun g => g.isPlaying = true → g.snake ≠ [])
      ?_ ?_ ?_ ?_ ?_ ?_ h
    · intro hp; exact absurd hp (by decide)
    · intro g now draws g' rest hst _
      obtain ⟨d, _, _, rfl⟩ := startGame_some hst
      exact List.cons_ne_nil _ _
    · intro g now hp
      rw [(togglePause_fields g now).1, (togglePause_fields g now).2.2.2.2.2.1]; exact hp
    · intro g d hp _ _; exact hp
    · intro g now hp; exact hp
    · intro g draws g' rest _ hmv hp'
      obtain ⟨head, tail, hs⟩ := moveSnake_snake_ne_nil hmv
      rcases moveSnake_some hs hmv with ⟨_, _, rfl⟩ | ⟨_, d, _, _, rfl⟩ | ⟨_, _, _, rfl⟩
      · exact absurd hp' Bool.false_ne_true
      · exact List.cons_ne_nil _ _
      · exact List.cons_ne_nil _ _
  cases hs : g.snake with
  | nil => exact absurd hs (inv hplay)
  | cons head tail => exact ⟨head, tail, rfl⟩

/-- C3: in every state reachable from the initial `Game` by `startGame`,
`handleInput`, `togglePause`, `update` and `moveSnake`, whatever the draws, no
two snake segments are on the same cell; and a duplicate-free snake is still
duplicate-free after any returning `moveSnake`, whether or not it ended the
game. -/
theorem snake_nodup_of_reachable :
    (∀ g, Reachable g → g.snake.Nodup) ∧
    (∀ g draws g' rest, g.snake.Nodup → moveSnake g draws = some (g', rest) →
      g'.snake.Nodup) := by
  refine ⟨fun g h => ?_, fun g draws g' rest hn h => moveSnake_nodup hn h⟩
  refine reachable_induction (P := fun g => g.snake.Nodup) ?_ ?_ ?_ ?_ ?_ ?_ h
  · exact List.nodup_nil
  · intro g now draws g' rest hst
    obtain ⟨d, _, _, rfl⟩ := startGame_some hst
    show List.Nodup [(⟨0, 0⟩ : Cell), ⟨-1, 0⟩, ⟨-2, 0⟩]
    decide
  · intro g now hn
    rw [(togglePause_fields g now).1]; exact hn
  · intro g d hn _ _; exact hn
  · intro g now hn; exact hn
  · intro g draws g' rest hn hmv; exact moveSnake_nodup hn hmv

/-- Witness of C3: the four-cell snake reached by starting and eating once has no
duplicate, and neither has the snake one more tick leaves. -/
theorem snake_nodup_of_reachable_witness :
    grownGame.snake.Nodup ∧ List.Nodup [(⟨2, 0⟩ : Cell), ⟨1, 0⟩, ⟨0, 0⟩, ⟨-1, 0⟩] :=
  ⟨snake_nodup_of_reachable.1 grownGame grownGame_reachable,
    snake_nodup_of_reachable.2 grownGame []
      { grownGame with snake := [⟨2, 0⟩, ⟨1, 0⟩, ⟨0, 0⟩, ⟨-1, 0⟩] } []
      (snake_nodup_of_reachable.1 grownGame grownGame_reachable) (by decide)⟩

/-- C4: in every reachable state with a food, the food cell is no snake segment.
A returning `spawnFood` stores a cell that is not on the snake it is given and
leaves that snake alone, and any returning `moveSnake` (eating, plain or
colliding) keeps the food off the snake. -/
theorem food_off_snake_of_reachable :
    (∀ g, Reachable g → ∀ f, g.food = some f → f ∉ g.snake) ∧
    (∀ g draws g' rest, spawnFood g draws = some (g', rest) →
      g'.snake = g.snake ∧ ∃ f, g'.food = some f ∧ f ∉ g.snake) ∧
    (∀ g draws g' rest, (∀ f, g.food = some f → f ∉ g.snake) →
      moveSnake g draws = some (g', rest) → ∀ f, g'.food = some f → f ∉ g'.snake) := by
  refine ⟨fun g h => ?_, fun g draws g' rest h => ?_,
    fun g draws g' rest hf h => moveSnake_food_off_snake hf h⟩
  · refine reachable_induction (P := fun g => ∀ f, g.food = some f → f ∉ g.snake)
      ?_ ?_ ?_ ?_ ?_ ?_ h
    · intro f hf; exact absurd hf (by simp [Game.initial])
    · intro g now draws g' rest hst
      obtain ⟨d, _, hfree, rfl⟩ := startGame_some hst
      intro f hf
      simp only [Option.some.injEq] at hf
      rw [← hf]; exact hfree
    · intro g now hf
      rw [(togglePause_fields g now).1, (togglePause_fields g now).2.2.2.1]; exact hf
    · intro g d hf _ _; exact hf
    · intro g now hf; exact hf
    · intro g draws g' rest hf hmv; exact moveSnake_food_off_snake hf hmv
  · obtain ⟨d, _, hfree, rfl⟩ := spawnFood_some h
    exact ⟨rfl, _, rfl, hfree⟩

/-- Witness of C4: after starting and eating once the new food `(3, -4)` is off the
four-cell snake. -/
theorem food_off_snake_of_reachable_witness :
    (⟨3, -4⟩ : Cell) ∉ grownGame.snake :=
  food_off_snake_of_reachable.1 grownGame grownGame_reachable ⟨3, -4⟩ rfl

/-- C8: in every reachable state, so in every run that starts with `startGame` and
goes on with key events and ticks in any order, `nextDirection` is one of the
four unit vectors and is not the exact reverse of `direction`; hence the
direction a returning `moveSnake` commits is never the reverse of the direction
committed before it, however many keys were pressed in between. -/
theorem no_reversal_of_reachable (g : Game) (h : Reachable g) :
    IsDirection g.nextDirection ∧ g.nextDirection ≠ reverse g.direction ∧
    ∀ draws g' rest, moveSnake g draws = some (g', rest) →
      g'.direction ≠ reverse g.direction := by
  have inv : IsDirection g.nextDirection ∧ g.nextDirection ≠ reverse g.direction := by
    refine reachable_induction
      (P := fun g => IsDirection g.nextDirection ∧ g.nextDirection ≠ reverse g.direction)
      ?_ ?_ ?_ ?_ ?_ ?_ h
    · decide
    · intro g now draws g' rest hst
      obtain ⟨d, _, _, rfl⟩ := startGame_some hst
      exact ⟨(by decide : IsDirection ⟨1, 0⟩), (by decide : (⟨1, 0⟩ : Cell) ≠ reverse ⟨1, 0⟩)⟩
    · intro g now hp
      rw [(togglePause_fields g now).2.1, (togglePause_fields g now).2.2.1]; exact hp
    · intro g d _ hd hne; exact ⟨hd, hne⟩
    · intro g now hp; exact hp
    · intro g draws g' rest hp hmv
      obtain ⟨head, tail, hs⟩ := moveSnake_snake_ne_nil hmv
      have hself : ∀ d : Cell, IsDirection d → d ≠ reverse d := by
        intro d hd hc
        have hx := congrArg Cell.x hc
        have hy := congrArg Cell.y hc
        simp only [reverse] at hx hy
        rcases hd with rfl | rfl | rfl | rfl <;> simp at hx hy
      rcases moveSnake_some hs hmv with ⟨_, _, rfl⟩ | ⟨_, d, _, _, rfl⟩ | ⟨_, _, _, rfl⟩ <;>
        exact ⟨hp.1, hself _ hp.1⟩
  refine ⟨inv.1, inv.2, fun draws g' rest hmv => ?_⟩
  obtain ⟨head, tail, hs⟩ := moveSnake_snake_ne_nil hmv
  rcases moveSnake_some hs hmv with ⟨_, _, rfl⟩ | ⟨_, d, _, _, rfl⟩ | ⟨_, _, _, rfl⟩ <;>
    exact inv.2

/-- Witness of C8: after `startGame`, ArrowUp and then ArrowDown before any tick,
the latched direction `(0, 1)` is not the reverse of the committed `(1, 0)`. -/
theorem no_reversal_of_reachable_witness :
    turnedGame.nextDirection ≠ reverse turnedGame.direction :=
  (no_reversal_of_reachable turnedGame turnedGame_reachable).2.1

/-! ## Matrices: `mat4Multiply`, `mat4Translate` -/

theorem finRange_four :
    List.finRange 4 = [⟨0, by decide⟩, ⟨1, by decide⟩, ⟨2, by decide⟩, ⟨3, by decide⟩] := by
  decide

set_option maxHeartbeats 1000000 in
/-- What the loop of `mat4Multiply` computes: the sum over `k` of
`a[4 * i + k] * b[4 * k + j]` is stored at index `i + 4 * j`. -/
theorem mat4Multiply_apply {R : Type} [CommRing R] (a b : Mat4 R) (i j : Fin 4) :
    mat4Multiply a b ⟨i.val + 4 * j.val, by omega⟩ =
      ∑ k : Fin 4, a ⟨4 * i.val + k.val, by omega⟩ * b ⟨4 * k.val + j.val, by omega⟩ := by
  unfold mat4Multiply
  rw [finRange_four]
  simp only [List.foldl_cons, List.foldl_nil, Fin.sum_univ_four]
  fin_cases i <;> fin_cases j <;>
    simp [Function.update_apply, Fin.ext_iff] <;> rfl

/-- Read row-major, the array `mat4Multiply a b` is the transpose of the matrix
product of `a` and `b`. -/
theorem mat4Multiply_rowMajor {R : Type} [CommRing R] (a b : Mat4 R) :
    rowMajor (mat4Multiply a b) = (rowMajor a * rowMajor b).transpose := by
  ext i j
  rw [Matrix.transpose_apply, Matrix.mul_apply]
  have h := mat4Multiply_apply a b j i
  have hidx : (⟨4 * i.val + j.val, by omega⟩ : Fin 16) = ⟨j.val + 4 * i.val, by omega⟩ :=
    Fin.ext (by simp only []; omega)
  unfold rowMajor
  rw [hidx, h]

/-- C11, the code at the failing input `a = mat4Create()`, `b` the translation
array for `(1, 2, 3)`: the product comes out transposed, so it is not `b`, the
array `mat4Translate(mat4Create(), 1, 2, 3)` holds 1, 2, 3 at indices 3, 7, 11
and zeros at 12, 13, 14, and `out[4 * 0 + 3]` is 1 where the row-major sum over
`k` of `a[4 * 0 + k] * b[4 * k + 3]` is 0. -/
theorem mat4Multiply_identity_transposed :
    mat4Multiply mat4Create translation123
      = ![1, 0, 0, 1, 0, 1, 0, 2, 0, 0, 1, 3, 0, 0, 0, 1] ∧
    mat4Multiply mat4Create translation123 ≠ translation123 ∧
    mat4Translate (mat4Create : Mat4 Int) 1 2 3
      = ![1, 0, 0, 1, 0, 1, 0, 2, 0, 0, 1, 3, 0, 0, 0, 1] ∧
    (mat4Translate (mat4Create : Mat4 Int) 1 2 3 12 = 0 ∧
      mat4Translate (mat4Create : Mat4 Int) 1 2 3 13 = 0 ∧
      mat4Translate (mat4Create : Mat4 Int) 1 2 3 14 = 0) ∧
    mat4Multiply mat4Create translation123 3 = 1 ∧
    (mat4Create : Mat4 Int) 0 * translation123 3 + mat4Create 1 * translation123 7
      + mat4Create 2 * translation123 11 + mat4Create 3 * translation123 15 = 0 := by
  decide

/-- C12, the code at a failing input: with `a` and `b` the identity and `c` the
translation array for `(1, 2, 3)`, the two bracketings of `mat4Multiply` give
different arrays (the transpose of `c` on the left, `c` itself on the right). -/
theorem mat4Multiply_not_assoc :
    mat4Multiply (mat4Multiply mat4Create mat4Create) translation123
      = ![1, 0, 0, 1, 0, 1, 0, 2, 0, 0, 1, 3, 0, 0, 0, 1] ∧
    mat4Multiply mat4Create (mat4Multiply mat4Create translation123) = translation123 ∧
    mat4Multiply (mat4Multiply mat4Create mat4Create) translation123
      ≠ mat4Multiply mat4Create (mat4Multiply mat4Create translation123) := by
  decide

/-! ## Grid to world: `getCellWorldPos` -/

/-- The map of `getCellWorldPos` in closed form: each coordinate is the cell
coordinate minus five and a half. -/
theorem getCellWorldPos_eq (cellX cellY : Int) :
    getCellWorldPos cellX cellY = { x := (cellX : ℚ) - 11 / 2, y := (cellY : ℚ) - 11 / 2 } := by
  simp only [getCellWorldPos, GRID_SIZE, CELL_SIZE]
  congr 1 <;> ring

/-- Distinct cells have distinct centres, and a step of one cell along an axis
moves the centre by `CELL_SIZE` along that axis. -/
theorem getCellWorldPos_injective (x1 y1 x2 y2 : Int) :
    (getCellWorldPos x1 y1 = getCellWorldPos x2 y2 → x1 = x2 ∧ y1 = y2) ∧
    (getCellWorldPos (x1 + 1) y1).x = (getCellWorldPos x1 y1).x + CELL_SIZE ∧
    (getCellWorldPos x1 (y1 + 1)).y = (getCellWorldPos x1 y1).y + CELL_SIZE := by
  refine ⟨fun h => ?_, ?_, ?_⟩
  · rw [getCellWorldPos_eq, getCellWorldPos_eq] at h
    simp only [WorldPos.mk.injEq, sub_left_inj, Int.cast_inj] at h
    exact h
  · simp only [getCellWorldPos_eq, CELL_SIZE]; push_cast; ring
  · simp only [getCellWorldPos_eq, CELL_SIZE]; push_cast; ring

/-- Which cells are drawn on the board: the centre of a cell of the playing field
`[-6, 6)` is on the board quad exactly when neither coordinate is negative. -/
theorem onBoard_getCellWorldPos_iff (cellX cellY : Int)
    (hx : -6 ≤ cellX ∧ cellX < 6) (hy : -6 ≤ cellY ∧ cellY < 6) :
    onBoard (getCellWorldPos cellX cellY) ↔ 0 ≤ cellX ∧ 0 ≤ cellY := by
  rw [getCellWorldPos_eq]
  simp only [onBoard, GRID_SIZE, CELL_SIZE]
  have hx1 : (cellX : ℚ) < 6 := by exact_mod_cast hx.2
  have hy1 : (cellY : ℚ) < 6 := by exact_mod_cast hy.2
  constructor
  · rintro ⟨h1, _, h3, _⟩
    have h1' : (-1 : ℚ) < cellX := by linarith
    have h3' : (-1 : ℚ) < cellY := by linarith
    have h1i : (-1 : Int) < cellX := by exact_mod_cast h1'
    have h3i : (-1 : Int) < cellY := by exact_mod_cast h3'
    omega
  · rintro ⟨h1, h2⟩
    have h1' : (0 : ℚ) ≤ cellX := by exact_mod_cast h1
    have h2' : (0 : ℚ) ≤ cellY := by exact_mod_cast h2
    refine ⟨?_, ?_, ?_, ?_⟩ <;> norm_num <;> linarith

/-- C13, the code at failing inputs: the second segment `(-1, 0)` of the snake of
`startGame` and the corner cell `(-6, -6)` are cells of the playing field, and
their centres `(-6.5, -5.5)` and `(-11.5, -11.5)` are off the board quad, whose
corners are at `(±6, ±6)`; the cell `(0, 0)` is centred at `(-5.5, -5.5)`. -/
theorem getCellWorldPos_off_board :
    getCellWorldPos (-1) 0 = { x := -13 / 2, y := -11 / 2 } ∧
    ¬ onBoard (getCellWorldPos (-1) 0) ∧
    getCellWorldPos (-6) (-6) = { x := -23 / 2, y := -23 / 2 } ∧
    ¬ onBoard (getCellWorldPos (-6) (-6)) ∧
    getCellWorldPos 0 0 = { x := -11 / 2, y := -11 / 2 } := by
  refine ⟨?_, ?_, ?_, ?_, ?_⟩
  · rw [getCellWorldPos_eq]; norm_num
  · rw [getCellWorldPos_eq]; norm_num [onBoard, GRID_SIZE, CELL_SIZE]
  · rw [getCellWorldPos_eq]; norm_num
  · rw [getCellWorldPos_eq]; norm_num [onBoard, GRID_SIZE, CELL_SIZE]
  · rw [getCellWorldPos_eq]; norm_num

end Snake3D
